import Mathlib

/-!
Verification of the branchlet worktree-orchestration core against its
natural-language specification.  The TypeScript sources are shallowly
embedded: the `runCreate` CLI command handler is translated into a pure
function over an explicit environment record (the services it consults),
fallible steps become `Except`, and the collaborator modules whose sources
are not available are modelled from the specification text (each such
definition says so in its doc comment).
-/

namespace Branchlet

/-- A branch record as produced by the Git Service branch listing
(spec section 3): the ref name (for remotes in the form
remote slash branch), whether it is a remote ref, and whether it is the
currently checked-out branch. -/
structure Branch where
  name : String
  isRemote : Bool
  isCurrent : Bool
deriving DecidableEq, Repr

/-- The 7-field worktree configuration record (spec section 3). -/
structure WorktreeConfig where
  worktreeCopyPatterns : List String
  worktreeCopyIgnores : List String
  worktreePathTemplate : String
  postCreateCmd : List String
  terminalCommand : String
  deleteBranchWithWorktree : Bool
  showRemoteBranches : Bool
deriving DecidableEq, Repr

/-- A raw (pre-validation) configuration object in which every field may be
absent: the shape accepted by the config schema before defaults apply. -/
structure WorktreeConfigInput where
  worktreeCopyPatterns : Option (List String) := none
  worktreeCopyIgnores : Option (List String) := none
  worktreePathTemplate : Option String := none
  postCreateCmd : Option (List String) := none
  terminalCommand : Option String := none
  deleteBranchWithWorktree : Option Bool := none
  showRemoteBranches : Option (Bool) := none
deriving DecidableEq, Repr

/-- Modelled from the spec: the Zod config schema module
(src/schemas/config-schema.ts) is not among the provided sources.  Spec
section 6 documents each of the 7 fields with its default; no field is
required, an absent field takes its default. -/
def parseWorktreeConfig (input : WorktreeConfigInput) : WorktreeConfig :=
  { worktreeCopyPatterns := input.worktreeCopyPatterns.getD [".env*", ".vscode/**"]
    worktreeCopyIgnores := input.worktreeCopyIgnores.getD
      ["**/node_modules/**", "**/dist/**", "**/.git/**", "**/Thumbs.db", "**/.DS_Store"]
    worktreePathTemplate := input.worktreePathTemplate.getD "$BASE_PATH.worktree"
    postCreateCmd := input.postCreateCmd.getD []
    terminalCommand := input.terminalCommand.getD ""
    deleteBranchWithWorktree := input.deleteBranchWithWorktree.getD false
    showRemoteBranches := input.showRemoteBranches.getD true }

/-- The empty configuration object: no field present. -/
def emptyConfigInput : WorktreeConfigInput := {}

/-- src/constants/default-config.ts: DEFAULT_CONFIG is the schema parse of
the empty object. -/
def DEFAULT_CONFIG : WorktreeConfig := parseWorktreeConfig emptyConfigInput

/-- The request record handed to the Worktree Orchestrator to create one
worktree (spec section 3). -/
structure CreateRequest where
  name : String
  sourceBranch : String
  newBranch : String
  basePath : String
  isRemoteSource : Bool
deriving DecidableEq, Repr

/-- The parsed CLI arguments consumed by `runCreate` (src/cli/types.ts shape
as used by src/cli/commands/create.ts): `command` plus the optional
`--name`, `--source` and `--branch` values. -/
structure CliArgs where
  command : String
  name : Option String := none
  source : Option String := none
  branch : Option String := none
deriving DecidableEq, Repr

/-- The result record of one subprocess invocation (spec section 3). -/
structure CommandResult where
  stdout : String
  stderr : String
  exitCode : Int
  success : Bool
deriving DecidableEq, Repr

/-- The environment `runCreate` runs in: the loaded configuration and the
service operations it invokes.  `repoInfo` is `gitService.getRepositoryInfo`
(its path on success), `branches` is `gitService.listBranches` keyed by the
`includeRemote` flag, `getWorktreePath` and `dirname` are the pure path
helpers, and `createWorktree` is the repository-mutating
`worktreeService.createWorktree` call. -/
structure Env where
  config : WorktreeConfig
  repoInfo : Except String String
  branches : Bool → List Branch
  getWorktreePath : String → String → String → String → String → String
  dirname : String → String
  createWorktree : CreateRequest → Except String Unit

/-- JavaScript truthiness of an optional string argument: `undefined` and
the empty string are falsy. -/
def truthy : Option String → Bool
  | none => false
  | some s => s != ""

/-- The characters after the first slash of the list, or `none` when the
list has no slash. -/
def afterFirstSlash : List Char → Option (List Char)
  | [] => none
  | c :: cs => if c = '/' then some cs else afterFirstSlash cs

/-- The regex replace in src/cli/commands/create.ts line 28:
`source.replace` of the anchored pattern "one or more non-slash characters
followed by a slash" with the empty string.  The pattern matches exactly
when the first slash of the string sits at index at least 1, and the
replacement drops everything up to and including that first slash;
otherwise the string is unchanged. -/
def stripRemote (s : String) : String :=
  match s.data with
  | [] => s
  | c :: cs =>
    if c = '/' then s
    else
      match afterFirstSlash cs with
      | some tail => String.mk tail
      | none => s

/-- Modelled from the spec: the path-utils module
(src/utils/path-utils.ts) is not among the provided sources.  Spec
section 4.4: `validateDirectoryName` rejects empty names, names containing
path separators, and names beginning with a dot (hidden-directory
convention); it returns the error text, or `none` on success. -/
def validateDirectoryName (name : String) : Option String :=
  if name = "" then some "directory name cannot be empty"
  else if name.data.contains '/' || name.data.contains '\\' then
    some "directory name cannot contain path separators"
  else if name.data.head? = some '.' then some "directory name cannot start with a dot"
  else none

/-- Characters rejected in a branch name: whitespace and the characters Git
disallows in ref names (spec section 4.4). -/
def gitForbiddenChars : List Char :=
  [' ', '\t', '\n', '~', '^', ':', '?', '*', '[', '\\']

/-- Modelled from the spec: the path-utils module
(src/utils/path-utils.ts) is not among the provided sources.  Spec
section 4.4: `validateBranchName` rejects embedded whitespace and other
characters Git disallows in ref names; both validators are pure,
synchronous, total functions performing no I/O (here: total Lean
functions). -/
def validateBranchName (name : String) : Option String :=
  if name.data.any (fun c => gitForbiddenChars.contains c) then
    some "branch name contains whitespace or a character Git disallows"
  else none

/-- A single-quote character, built by code point so the message strings
below match the TypeScript source exactly. -/
def squote : String := String.singleton (Char.ofNat 39)

/-- src/cli/commands/create.ts `runCreate`, generalized over the two
validators (`runCreate` below instantiates them with the real ones).  The
translation is line by line: missing/empty `--name` and `--source` throw;
directory-name validation; repository info; branch listing filtered by
`config.showRemoteBranches`; source lookup; default-branch resolution with
remote-prefix stripping; branch-name validation only under a truthy
explicit `--branch`; worktree path and base path; the single mutating call
`worktreeService.createWorktree`.  A thrown error is `.error`; on success
the value is the request passed to `createWorktree` paired with the
worktree path printed to stdout. -/
def runCreateWith (vDir vBranch : String → Option String) (args : CliArgs) (env : Env) :
    Except String (CreateRequest × String) :=
  match args.name with
  | none => .error "Missing required argument: --name (-n)"
  | some name =>
  if name = "" then .error "Missing required argument: --name (-n)"
  else
  match args.source with
  | none => .error "Missing required argument: --source (-s)"
  | some source =>
  if source = "" then .error "Missing required argument: --source (-s)"
  else
  match vDir name with
  | some dirError => .error ("Invalid directory name: " ++ dirError)
  | none =>
  match env.repoInfo with
  | .error e => .error e
  | .ok repoPath =>
  let config := env.config
  let allBranches := env.branches config.showRemoteBranches
  match allBranches.find? (fun b => b.name == source) with
  | none => .error ("Source branch " ++ squote ++ source ++ squote ++ " does not exist")
  | some sourceBranchInfo =>
  let defaultBranch :=
    if !(truthy args.branch) && sourceBranchInfo.isRemote then stripRemote source else source
  let newBranch := args.branch.getD defaultBranch
  let branchErr : Option String :=
    match args.branch with
    | some b => if b = "" then none else vBranch b
    | none => none
  match branchErr with
  | some e => .error ("Invalid branch name: " ++ e)
  | none =>
  let worktreePath :=
    env.getWorktreePath repoPath name config.worktreePathTemplate newBranch source
  let basePath := env.dirname worktreePath
  let req : CreateRequest :=
    { name := name, sourceBranch := source, newBranch := newBranch,
      basePath := basePath, isRemoteSource := sourceBranchInfo.isRemote }
  match env.createWorktree req with
  | .error e => .error e
  | .ok _ => .ok (req, worktreePath)

/-- `runCreate` with the real validators. -/
def runCreate (args : CliArgs) (env : Env) : Except String (CreateRequest × String) :=
  runCreateWith validateDirectoryName validateBranchName args env

/-- Modelled from the spec: the Post-Create Command Executor
(spec section 4.6) is not among the provided sources.  Each configured
command is executed in order inside the new worktree; the result list
pairs every command with its subprocess result. -/
def postCreateResults (exec : String → CommandResult) (cmds : List String) :
    List (String × CommandResult) :=
  cmds.map (fun c => (c, exec c))

/-- Modelled from the spec: a failed post-create command (non-zero exit or
spawn failure, both a non-`success` result) becomes a warning carrying the
command text and the captured stderr; the warning text is the one asserted
by tests/cli/non-tty.test.ts. -/
def postCreateWarnings (results : List (String × CommandResult)) : List String :=
  results.filterMap (fun r =>
    if r.2.success then none
    else some ("Warning: post-create command failed: " ++ r.1 ++ "\n" ++ r.2.stderr))

/-- The orchestrator's result for one successful create: the new worktree
path plus accumulated non-fatal warnings (spec section 6). -/
structure CreateOutcome where
  path : String
  warnings : List String
deriving DecidableEq, Repr

/-- Modelled from the spec: the Worktree Orchestrator create flow after
validation (spec sections 4.5 to 4.7, worktree-service sources not
provided).  A Git creation failure is terminal; once the worktree exists,
file-copy warnings and post-create command warnings are collected on a
successful outcome and never escalate or roll the worktree back. -/
def orchestrateCreate (gitAdd : Except String String) (copyWarnings : List String)
    (postCmds : List String) (exec : String → CommandResult) :
    Except String CreateOutcome :=
  match gitAdd with
  | .error e => .error e
  | .ok path =>
    .ok { path := path
          warnings := copyWarnings ++ postCreateWarnings (postCreateResults exec postCmds) }

/-- A local branch fixture. -/
def localMainBranch : Branch := ⟨"main", false, true⟩

/-- A remote branch fixture whose local name has a slash of its own. -/
def remoteFeatBranch : Branch := ⟨"origin/feat/x", true, false⟩

/-- A remote branch fixture whose local name a branch validator would
reject. -/
def remoteSpaceBranch : Branch := ⟨"origin/feat x", true, false⟩

/-- A concrete environment over a given branch listing, with the default
configuration and trivial path helpers. -/
def demoEnv (bs : Bool → List Branch) : Env :=
  { config := DEFAULT_CONFIG
    repoInfo := Except.ok "/repo"
    branches := bs
    getWorktreePath := fun _ name _ _ _ => "/repo.worktree/" ++ name
    dirname := fun _ => "/repo.worktree"
    createWorktree := fun _ => Except.ok () }

/-- Environment whose listing has the one remote branch origin/feat/x. -/
def envRemote : Env := demoEnv (fun _ => [remoteFeatBranch])

/-- Environment whose listing has the one local branch main. -/
def envLocal : Env := demoEnv (fun _ => [localMainBranch])

/-- Environment whose listing has the one remote branch origin/feat x. -/
def envRemoteSpace : Env := demoEnv (fun _ => [remoteSpaceBranch])

/-- Configuration with remote branches hidden. -/
def cfgNoRemote : WorktreeConfig :=
  parseWorktreeConfig { emptyConfigInput with showRemoteBranches := some false }

/-- Environment in which origin/feat/x exists in the repository but the
configuration hides remote branches from the listing. -/
def envHidden : Env :=
  { config := cfgNoRemote
    repoInfo := Except.ok "/repo"
    branches := fun includeRemote =>
      if includeRemote then [localMainBranch, remoteFeatBranch] else [localMainBranch]
    getWorktreePath := fun _ name _ _ _ => "/repo.worktree/" ++ name
    dirname := fun _ => "/repo.worktree"
    createWorktree := fun _ => Except.ok () }

/-- Create arguments: remote source, no explicit branch. -/
def argsRemoteDefault : CliArgs := ⟨"create", some "wt", some "origin/feat/x", none⟩

/-- Create arguments: local source, no explicit branch. -/
def argsLocalDefault : CliArgs := ⟨"create", some "wt", some "main", none⟩

/-- Create arguments: explicit branch given as the empty string. -/
def argsEmptyBranch : CliArgs := ⟨"create", some "wt", some "main", some ""⟩

/-- Create arguments naming a source branch absent from the listing. -/
def argsMissingSource : CliArgs := ⟨"create", some "test-wt", some "nonexistent-branch-xyz", none⟩

/-- Create arguments with a directory name containing a path separator. -/
def argsBadDir : CliArgs := ⟨"create", some "a/b", some "main", none⟩

/-- Create arguments: the remote source origin/feat x, no explicit branch. -/
def argsRemoteSpace : CliArgs := ⟨"create", some "wt", some "origin/feat x", none⟩

/-- The request produced for `argsRemoteDefault` in `envRemote`. -/
def reqRemoteDefault : CreateRequest := ⟨"wt", "origin/feat/x", "feat/x", "/repo.worktree", true⟩

/-- The request produced for `argsLocalDefault` in `envLocal`. -/
def reqLocalDefault : CreateRequest := ⟨"wt", "main", "main", "/repo.worktree", false⟩

/-- The request produced for `argsEmptyBranch` in `envLocal`. -/
def reqEmptyBranch : CreateRequest := ⟨"wt", "main", "", "/repo.worktree", false⟩

/-- The request produced for `argsRemoteSpace` in `envRemoteSpace`. -/
def reqRemoteSpace : CreateRequest := ⟨"wt", "origin/feat x", "feat x", "/repo.worktree", true⟩

/-- A post-create command fixture: an unresolvable executable name. -/
def failCmd : String := "this-command-does-not-exist-xyz"

/-- A subprocess model in which every command fails to spawn. -/
def failingExec : String → CommandResult :=
  fun c => ⟨"", "command not found: " ++ c, 127, false⟩

end Branchlet

namespace Branchlet

theorem afterFirstSlash_concat (cs tail : List Char) (h : ∀ c ∈ cs, c ≠ '/') :
    afterFirstSlash (cs ++ '/' :: tail) = some tail := by
  induction cs with
  | nil => simp [afterFirstSlash]
  | cons c cs ih =>
    simp only [List.cons_append, afterFirstSlash]
    rw [if_neg (h c (List.mem_cons_self c cs))]
    exact ih (fun d hd => h d (List.mem_cons_of_mem c hd))

theorem stripRemote_concat (r x : String) (hr : r ≠ "") (h : ∀ c ∈ r.data, c ≠ '/') :
    stripRemote (r ++ "/" ++ x) = x := by
  obtain ⟨rd⟩ := r
  obtain ⟨xd⟩ := x
  cases rd with
  | nil => exact absurd rfl hr
  | cons c cs =>
    have hd : (String.mk (c :: cs) ++ "/" ++ String.mk xd).data = c :: (cs ++ '/' :: xd) := by
      simp [String.data_append]
    simp only [stripRemote, hd]
    rw [if_neg (h c (List.mem_cons_self c cs))]
    rw [afterFirstSlash_concat cs xd (fun d hd2 => h d (List.mem_cons_of_mem c hd2))]

theorem runCreateWith_ok_inv (vDir vBranch : String → Option String) (args : CliArgs)
    (env : Env) (req : CreateRequest) (path : String)
    (h : runCreateWith vDir vBranch args env = .ok (req, path)) :
    ∃ name source bi repoPath,
      args.name = some name ∧ name ≠ "" ∧
      args.source = some source ∧ source ≠ "" ∧
      vDir name = none ∧ env.repoInfo = .ok repoPath ∧
      (env.branches env.config.showRemoteBranches).find? (fun b => b.name == source) = some bi ∧
      (∀ b, args.branch = some b → b ≠ "" → vBranch b = none) ∧
      req.name = name ∧ req.sourceBranch = source ∧ req.isRemoteSource = bi.isRemote ∧
      req.newBranch = (match args.branch with
        | some b => b
        | none => if bi.isRemote then stripRemote source else source) := by
  unfold runCreateWith at h
  split at h
  · exact absurd h (by simp)
  next name hname =>
    split at h
    · exact absurd h (by simp)
    next hn =>
      split at h
      · exact absurd h (by simp)
      next source hsource =>
        split at h
        · exact absurd h (by simp)
        next hs =>
          split at h
          · exact absurd h (by simp)
          next hvd =>
            split at h
            · exact absurd h (by simp)
            next repoPath hrepo =>
              dsimp only at h
              split at h
              · exact absurd h (by simp)
              next bi hfind =>
                split at h
                · exact absurd h (by simp)
                next hbr =>
                  split at h
                  · exact absurd h (by simp)
                  next hcw =>
                    simp only [Except.ok.injEq, Prod.mk.injEq] at h
                    obtain ⟨h1, h2⟩ := h
                    subst h1
                    subst h2
                    refine ⟨name, source, bi, repoPath, hname, hn, hsource, hs, hvd,
                      hrepo, hfind, ?_, rfl, rfl, rfl, ?_⟩
                    · intro b hb hbne
                      simp only [hb] at hbr
                      rwa [if_neg hbne] at hbr
                    · cases hab : args.branch with
                      | some b => simp [hab, Option.getD]
                      | none => simp [hab, Option.getD, truthy]

theorem runCreateWith_not_found (vDir vBranch : String → Option String) (args : CliArgs)
    (env : Env) (name source repoPath : String)
    (hname : args.name = some name) (hn : name ≠ "")
    (hsource : args.source = some source) (hs : source ≠ "")
    (hvd : vDir name = none) (hrepo : env.repoInfo = .ok repoPath)
    (hfind : (env.branches env.config.showRemoteBranches).find?
      (fun b => b.name == source) = none) :
    runCreateWith vDir vBranch args env =
      .error ("Source branch " ++ squote ++ source ++ squote ++ " does not exist") := by
  simp [runCreateWith, hname, hsource, hn, hs, hvd, hrepo, hfind]

theorem runCreateWith_error_of_invalid (vDir vBranch : String → Option String)
    (args : CliArgs) (cfg : WorktreeConfig) (ri : Except String String)
    (br : Bool → List Branch) (gwp : String → String → String → String → String → String)
    (dn : String → String)
    (hinv : (∃ n e, args.name = some n ∧ vDir n = some e) ∨
      (∃ b e, args.branch = some b ∧ b ≠ "" ∧ vBranch b = some e)) :
    ∃ msg, ∀ cw, runCreateWith vDir vBranch args ⟨cfg, ri, br, gwp, dn, cw⟩ = .error msg := by
  cases hname : args.name with
  | none => exact ⟨"Missing required argument: --name (-n)", fun cw => by simp [runCreateWith, hname]⟩
  | some name =>
    by_cases hn : name = ""
    · exact ⟨"Missing required argument: --name (-n)", fun cw => by simp [runCreateWith, hname, hn]⟩
    · cases hsrc : args.source with
      | none =>
        exact ⟨"Missing required argument: --source (-s)", fun cw => by
          simp [runCreateWith, hname, hn, hsrc]⟩
      | some source =>
        by_cases hs : source = ""
        · exact ⟨"Missing required argument: --source (-s)", fun cw => by
            simp [runCreateWith, hname, hn, hsrc, hs]⟩
        · cases hvd : vDir name with
          | some e =>
            exact ⟨"Invalid directory name: " ++ e, fun cw => by
              simp [runCreateWith, hname, hn, hsrc, hs, hvd]⟩
          | none =>
            have hbonly : ∃ b e, args.branch = some b ∧ b ≠ "" ∧ vBranch b = some e := by
              rcases hinv with ⟨n, e, hn2, he⟩ | hbr
              · rw [hname] at hn2
                injection hn2 with hn3
                subst hn3
                rw [hvd] at he
                exact absurd he (by simp)
              · exact hbr
            obtain ⟨b, e, hb, hbne, hvb⟩ := hbonly
            cases hrepo : ri with
            | error e2 =>
              exact ⟨e2, fun cw => by simp [runCreateWith, hname, hn, hsrc, hs, hvd, hrepo]⟩
            | ok repoPath =>
              cases hfind : (br cfg.showRemoteBranches).find? (fun b2 => b2.name == source) with
              | none =>
                exact ⟨"Source branch " ++ squote ++ source ++ squote ++ " does not exist",
                  fun cw => by simp [runCreateWith, hname, hn, hsrc, hs, hvd, hrepo, hfind]⟩
              | some bi =>
                exact ⟨"Invalid branch name: " ++ e, fun cw => by
                  simp [runCreateWith, hname, hn, hsrc, hs, hvd, hrepo, hfind, hb, hbne, hvb]⟩

end Branchlet

namespace Branchlet

/-- C1: for a create request that omits an explicit new-branch name, the
request handed to createWorktree carries, as its new branch, the source
name with the prefix up to and including the first slash stripped when the
source branch is a remote ref of the form remote slash rest, and the
source branch name unchanged when the source is not remote. -/
theorem create_default_branch_resolution (args : CliArgs) (env : Env)
    (req : CreateRequest) (path source : String)
    (homit : args.branch = none) (hsrc : args.source = some source)
    (h : runCreate args env = .ok (req, path)) :
    (req.isRemoteSource = false → req.newBranch = source) ∧
    (req.isRemoteSource = true → ∀ remote rest, source = remote ++ "/" ++ rest →
      remote ≠ "" → (∀ c ∈ remote.data, c ≠ '/') → req.newBranch = rest) := by
  obtain ⟨name, source2, bi, repoPath, hname, hn, hsource2, hs, hvd, hrepo, hfind,
    hvb, hreqname, hreqsrc, hreqrem, hreqnew⟩ :=
    runCreateWith_ok_inv validateDirectoryName validateBranchName args env req path h
  rw [hsrc] at hsource2
  injection hsource2 with hsq
  subst hsq
  simp only [homit] at hreqnew
  constructor
  · intro hlocal
    rw [hreqrem] at hlocal
    rw [hreqnew, if_neg (by simp [hlocal])]
  · intro hremote remote rest hform hrne hrslash
    rw [hreqrem] at hremote
    rw [hreqnew, if_pos hremote, hform]
    exact stripRemote_concat remote rest hrne hrslash

/-- Witness for C1: source origin/feat/x with no explicit branch yields
effective new branch feat/x, and local source main yields main. -/
theorem create_default_branch_resolution_witness :
    argsRemoteDefault.branch = none ∧
    runCreate argsRemoteDefault envRemote = .ok (reqRemoteDefault, "/repo.worktree/wt") ∧
    reqRemoteDefault.newBranch = "feat/x" ∧
    runCreate argsLocalDefault envLocal = .ok (reqLocalDefault, "/repo.worktree/wt") ∧
    reqLocalDefault.newBranch = "main" := by
  have h1 : runCreate argsRemoteDefault envRemote = .ok (reqRemoteDefault, "/repo.worktree/wt") := rfl
  have h2 : runCreate argsLocalDefault envLocal = .ok (reqLocalDefault, "/repo.worktree/wt") := rfl
  refine ⟨rfl, h1, ?_, h2, ?_⟩
  · exact (create_default_branch_resolution argsRemoteDefault envRemote reqRemoteDefault
      "/repo.worktree/wt" "origin/feat/x" rfl rfl h1).2 rfl "origin" "feat/x" rfl
      (by decide) (by decide)
  · exact (create_default_branch_resolution argsLocalDefault envLocal reqLocalDefault
      "/repo.worktree/wt" "main" rfl rfl h2).1 rfl

/-- C2: a create request whose source branch name appears nowhere in the
branch listing fails with the not-found error naming that source, for
every possible createWorktree implementation cw, so createWorktree is
never invoked and no Git mutation is performed. -/
theorem create_missing_source_rejected (args : CliArgs) (cfg : WorktreeConfig)
    (ri : Except String String) (br : Bool → List Branch)
    (gwp : String → String → String → String → String → String) (dn : String → String)
    (cw : CreateRequest → Except String Unit) (name source repoPath : String)
    (hname : args.name = some name) (hn : name ≠ "")
    (hsource : args.source = some source) (hs : source ≠ "")
    (hvd : validateDirectoryName name = none) (hri : ri = .ok repoPath)
    (habsent : ∀ b ∈ br cfg.showRemoteBranches, b.name ≠ source) :
    runCreate args ⟨cfg, ri, br, gwp, dn, cw⟩ =
      .error ("Source branch " ++ squote ++ source ++ squote ++ " does not exist") := by
  apply runCreateWith_not_found validateDirectoryName validateBranchName args _ name source
    repoPath hname hn hsource hs hvd hri
  exact List.find?_eq_none.mpr (fun b hb => by simp [habsent b hb])

/-- Witness for C2: a concrete request whose source branch is absent from
a listing holding only main. -/
theorem create_missing_source_rejected_witness :
    runCreate argsMissingSource envLocal =
      .error ("Source branch " ++ squote ++ "nonexistent-branch-xyz" ++ squote ++
        " does not exist") := by
  exact create_missing_source_rejected argsMissingSource DEFAULT_CONFIG (Except.ok "/repo")
    (fun _ => [localMainBranch]) (fun _ n _ _ _ => "/repo.worktree/" ++ n)
    (fun _ => "/repo.worktree") (fun _ => Except.ok ()) "test-wt" "nonexistent-branch-xyz"
    "/repo" rfl (by decide) rfl (by decide) rfl rfl (by decide)

/-- C3 counterexample: an explicit --branch given as the empty string is
neither replaced by the default (JavaScript nullish coalescing keeps it)
nor validated (it is falsy), so runCreate reaches createWorktree with an
empty newBranch. -/
theorem create_empty_newBranch_counterexample :
    runCreate argsEmptyBranch envLocal = .ok (reqEmptyBranch, "/repo.worktree/wt") ∧
    reqEmptyBranch.newBranch = "" := ⟨rfl, rfl⟩

/-- C3 (amended): in every execution of runCreate that reaches the
createWorktree call, the newBranch field of the constructed request is
non-empty, provided the explicit branch argument is non-empty whenever
supplied and every remote branch name in the listing has a non-empty
remainder after stripping its remote prefix. -/
theorem create_newBranch_nonempty (args : CliArgs) (env : Env)
    (req : CreateRequest) (path : String)
    (hexp : ∀ b, args.branch = some b → b ≠ "")
    (hrem : ∀ b ∈ env.branches env.config.showRemoteBranches, b.isRemote = true →
      stripRemote b.name ≠ "")
    (h : runCreate args env = .ok (req, path)) : req.newBranch ≠ "" := by
  obtain ⟨name, source, bi, repoPath, hname, hn, hsource, hs, hvd, hrepo, hfind,
    hvb, hreqname, hreqsrc, hreqrem, hreqnew⟩ :=
    runCreateWith_ok_inv validateDirectoryName validateBranchName args env req path h
  have hbmem := List.mem_of_find?_eq_some hfind
  have hbname : bi.name = source := by
    have := List.find?_some hfind
    simpa using this
  rw [hreqnew]
  cases hab : args.branch with
  | some b =>
    simp only [hab]
    exact hexp b hab
  | none =>
    simp only [hab]
    by_cases hbr : bi.isRemote = true
    · rw [if_pos hbr, ← hbname]
      exact hrem bi hbmem hbr
    · rw [if_neg hbr]
      exact hs

/-- Witness for the amended C3 at a concrete successful create. -/
theorem create_newBranch_nonempty_witness :
    runCreate argsLocalDefault envLocal = .ok (reqLocalDefault, "/repo.worktree/wt") ∧
    reqLocalDefault.newBranch ≠ "" := by
  have h : runCreate argsLocalDefault envLocal = .ok (reqLocalDefault, "/repo.worktree/wt") := rfl
  exact ⟨h, create_newBranch_nonempty argsLocalDefault envLocal reqLocalDefault
    "/repo.worktree/wt" (by intro b hb; simp [argsLocalDefault] at hb) (by decide) h⟩

/-- C4: when directory-name validation fails on the supplied name, or
branch-name validation fails on a supplied non-empty branch, runCreate
terminates with an error, for every possible createWorktree
implementation cw, so validation completes strictly before any
repository-mutating call and no mutating Git call is ever made. -/
theorem create_validation_before_mutation (args : CliArgs) (cfg : WorktreeConfig)
    (ri : Except String String) (br : Bool → List Branch)
    (gwp : String → String → String → String → String → String) (dn : String → String)
    (hinv : (∃ n e, args.name = some n ∧ validateDirectoryName n = some e) ∨
      (∃ b e, args.branch = some b ∧ b ≠ "" ∧ validateBranchName b = some e)) :
    ∃ msg, ∀ cw, runCreate args ⟨cfg, ri, br, gwp, dn, cw⟩ = .error msg :=
  runCreateWith_error_of_invalid validateDirectoryName validateBranchName args cfg ri br gwp dn hinv

/-- Witness for C4: the directory name a/b fails validation and the
operation errors whatever createWorktree would do. -/
theorem create_validation_before_mutation_witness :
    (∃ n e, argsBadDir.name = some n ∧ validateDirectoryName n = some e) ∧
    (∃ msg, ∀ cw, runCreate argsBadDir
      ⟨DEFAULT_CONFIG, Except.ok "/repo", fun _ => [localMainBranch],
       fun _ n _ _ _ => "/repo.worktree/" ++ n, fun _ => "/repo.worktree", cw⟩ = .error msg) := by
  have hv : validateDirectoryName "a/b" = some "directory name cannot contain path separators" := rfl
  exact ⟨⟨"a/b", _, rfl, hv⟩, create_validation_before_mutation argsBadDir DEFAULT_CONFIG
    (Except.ok "/repo") (fun _ => [localMainBranch]) (fun _ n _ _ _ => "/repo.worktree/" ++ n)
    (fun _ => "/repo.worktree") (Or.inl ⟨"a/b", _, rfl, hv⟩)⟩

/-- C5: validateDirectoryName errors on the empty name, on any name
containing a path separator, and on any name beginning with a dot; it
accepts my-feature; and runCreate rejects any supplied name that fails
directory validation, for every createWorktree implementation, before any
Git call. -/
theorem validateDirectoryName_spec :
    (validateDirectoryName "").isSome = true ∧
    (∀ s, '/' ∈ s.data ∨ '\\' ∈ s.data → (validateDirectoryName s).isSome = true) ∧
    (∀ s, s.data.head? = some '.' → (validateDirectoryName s).isSome = true) ∧
    (validateDirectoryName ".hidden").isSome = true ∧
    (validateDirectoryName "a/b").isSome = true ∧
    validateDirectoryName "my-feature" = none ∧
    (∀ (args : CliArgs) cfg ri br gwp dn n, args.name = some n →
      (validateDirectoryName n).isSome = true →
      ∃ msg, ∀ cw, runCreate args ⟨cfg, ri, br, gwp, dn, cw⟩ = .error msg) := by
  refine ⟨by decide, ?_, ?_, by decide, by decide, by decide, ?_⟩
  · intro s hs
    unfold validateDirectoryName
    split_ifs with h1 h2 h3
    · rfl
    · rfl
    · rfl
    · exfalso
      apply h2
      rcases hs with h | h
      · rw [Bool.or_eq_true]
        exact Or.inl (List.elem_iff.mpr h)
      · rw [Bool.or_eq_true]
        exact Or.inr (List.elem_iff.mpr h)
  · intro s hd
    unfold validateDirectoryName
    split_ifs with h1 h2
    · rfl
    · rfl
    · rfl
  · intro args cfg ri br gwp dn n hname hval
    rcases Option.isSome_iff_exists.mp hval with ⟨e, he⟩
    by_cases hn : n = ""
    · exact ⟨"Missing required argument: --name (-n)", fun cw => by
        simp [runCreate, runCreateWith, hname, hn]⟩
    · exact runCreateWith_error_of_invalid validateDirectoryName validateBranchName args
        cfg ri br gwp dn (Or.inl ⟨n, e, hname, he⟩)

/-- Witness for C5 at the concrete name a/b. -/
theorem validateDirectoryName_spec_witness :
    ('/' ∈ "a/b".data ∨ '\\' ∈ "a/b".data) ∧ (validateDirectoryName "a/b").isSome = true ∧
    argsBadDir.name = some "a/b" ∧
    (∃ msg, ∀ cw, runCreate argsBadDir ⟨DEFAULT_CONFIG, Except.ok "/repo",
      fun _ => [localMainBranch], fun _ n _ _ _ => "/repo.worktree/" ++ n,
      fun _ => "/repo.worktree", cw⟩ = .error msg) := by
  refine ⟨by decide, validateDirectoryName_spec.2.1 "a/b" (by decide), rfl, ?_⟩
  exact validateDirectoryName_spec.2.2.2.2.2.2 argsBadDir DEFAULT_CONFIG (Except.ok "/repo")
    (fun _ => [localMainBranch]) (fun _ n _ _ _ => "/repo.worktree/" ++ n)
    (fun _ => "/repo.worktree") "a/b" rfl (by decide)

/-- C6: validateBranchName errors on branch with spaces and on any name
containing a character of the forbidden set (embedded whitespace and
characters Git disallows), and accepts feat/x-1; it is a total Lean
function, the embedding of a pure, synchronous validator doing no I/O. -/
theorem validateBranchName_spec :
    (validateBranchName "branch with spaces").isSome = true ∧
    validateBranchName "feat/x-1" = none ∧
    (∀ s c, c ∈ s.data → c ∈ gitForbiddenChars → (validateBranchName s).isSome = true) := by
  refine ⟨by decide, by decide, ?_⟩
  intro s c hcs hcf
  have ha : s.data.any (fun c2 => gitForbiddenChars.contains c2) = true := by
    rw [List.any_eq_true]
    exact ⟨c, hcs, by simpa using hcf⟩
  unfold validateBranchName
  rw [if_pos ha]
  rfl

/-- Witness for C6 at the concrete name branch with spaces. -/
theorem validateBranchName_spec_witness :
    (' ' ∈ "branch with spaces".data ∧ ' ' ∈ gitForbiddenChars) ∧
    (validateBranchName "branch with spaces").isSome = true :=
  ⟨⟨by decide, by decide⟩,
    validateBranchName_spec.2.2 "branch with spaces" ' ' (by decide) (by decide)⟩

/-- C7: when a post-create command fails (non-zero exit or spawn failure),
the create operation still succeeds, the worktree path is the reported
result, and a warning containing the failing command text is collected;
the failure never escalates and never rolls the worktree back. -/
theorem postCreate_failure_nonfatal (path : String) (copyWarnings : List String)
    (cmds : List String) (exec : String → CommandResult) (cmd : String)
    (hmem : cmd ∈ cmds) (hfail : (exec cmd).success = false) :
    ∃ outcome, orchestrateCreate (.ok path) copyWarnings cmds exec = .ok outcome ∧
      outcome.path = path ∧
      ∃ w ∈ outcome.warnings, cmd.data <:+: w.data := by
  refine ⟨_, rfl, rfl, ?_⟩
  refine ⟨"Warning: post-create command failed: " ++ cmd ++ "\n" ++ (exec cmd).stderr, ?_, ?_⟩
  · apply List.mem_append_right
    apply List.mem_filterMap.mpr
    refine ⟨(cmd, exec cmd), List.mem_map.mpr ⟨cmd, hmem, rfl⟩, ?_⟩
    simp [hfail]
  · refine ⟨("Warning: post-create command failed: ").data, ("\n" ++ (exec cmd).stderr).data, ?_⟩
    simp [String.data_append, List.append_assoc]

/-- Witness for C7: an unresolvable executable name among the post-create
commands. -/
theorem postCreate_failure_nonfatal_witness :
    failCmd ∈ [failCmd] ∧ (failingExec failCmd).success = false ∧
    (∃ outcome, orchestrateCreate (.ok "/repo.worktree/wt") [] [failCmd] failingExec =
        .ok outcome ∧
      outcome.path = "/repo.worktree/wt" ∧ ∃ w ∈ outcome.warnings, failCmd.data <:+: w.data) :=
  ⟨List.mem_singleton.mpr rfl, rfl, postCreate_failure_nonfatal "/repo.worktree/wt" [] [failCmd]
    failingExec failCmd (List.mem_singleton.mpr rfl) rfl⟩

/-- C8: parsing the empty configuration object yields exactly the
documented defaults for all 7 fields; no field is required since the
all-absent input parses. -/
theorem default_config_fields :
    DEFAULT_CONFIG =
      { worktreeCopyPatterns := [".env*", ".vscode/**"]
        worktreeCopyIgnores :=
          ["**/node_modules/**", "**/dist/**", "**/.git/**", "**/Thumbs.db", "**/.DS_Store"]
        worktreePathTemplate := "$BASE_PATH.worktree"
        postCreateCmd := []
        terminalCommand := ""
        deleteBranchWithWorktree := false
        showRemoteBranches := true } := rfl

/-- C9: when the explicit branch argument is omitted, the result of
runCreate is independent of the branch validator, so validateBranchName
is never applied to the defaulted new-branch name; it is consulted only
under a supplied (truthy) explicit branch. -/
theorem create_branch_validation_only_when_explicit (vB : String → Option String)
    (args : CliArgs) (env : Env) (homit : args.branch = none) :
    runCreateWith validateDirectoryName vB args env = runCreate args env := by
  unfold runCreate runCreateWith
  simp only [homit]

/-- Witness for C9: with remote source origin/feat x and no explicit
branch, even an always-rejecting branch validator changes nothing, and
the defaulted name feat x, which validateBranchName would reject, reaches
createWorktree unvalidated. -/
theorem create_branch_validation_only_when_explicit_witness :
    runCreateWith validateDirectoryName (fun _ => some "rejected") argsRemoteSpace envRemoteSpace =
      runCreate argsRemoteSpace envRemoteSpace ∧
    runCreate argsRemoteSpace envRemoteSpace = .ok (reqRemoteSpace, "/repo.worktree/wt") ∧
    reqRemoteSpace.newBranch = "feat x" ∧
    (validateBranchName "feat x").isSome = true := by
  refine ⟨create_branch_validation_only_when_explicit (fun _ => some "rejected")
    argsRemoteSpace envRemoteSpace rfl, rfl, rfl, by decide⟩

/-- C10: with showRemoteBranches configured false, a create request naming
a remote branch fails with the not-found error even though the branch
exists in the full listing, because the lookup searches only the listing
produced with includeRemote equal to showRemoteBranches. -/
theorem create_remote_hidden_not_found (args : CliArgs) (cfg : WorktreeConfig)
    (ri : Except String String) (br : Bool → List Branch)
    (gwp : String → String → String → String → String → String) (dn : String → String)
    (cw : CreateRequest → Except String Unit) (name source repoPath : String)
    (hname : args.name = some name) (hn : name ≠ "")
    (hsource : args.source = some source) (hs : source ≠ "")
    (hvd : validateDirectoryName name = none) (hri : ri = .ok repoPath)
    (hshow : cfg.showRemoteBranches = false)
    (hlocal : ∀ b ∈ br false, b.name ≠ source)
    (_hexists : ∃ b ∈ br true, b.name = source ∧ b.isRemote = true) :
    runCreate args ⟨cfg, ri, br, gwp, dn, cw⟩ =
      .error ("Source branch " ++ squote ++ source ++ squote ++ " does not exist") := by
  apply runCreateWith_not_found validateDirectoryName validateBranchName args _ name source
    repoPath hname hn hsource hs hvd hri
  show (br cfg.showRemoteBranches).find? (fun b => b.name == source) = none
  rw [hshow]
  exact List.find?_eq_none.mpr (fun b hb => by simp [hlocal b hb])

/-- Witness for C10: origin/feat/x exists among remote branches but the
configuration hides remotes, so the create request is rejected. -/
theorem create_remote_hidden_not_found_witness :
    envHidden.config.showRemoteBranches = false ∧
    (∃ b ∈ envHidden.branches true, b.name = "origin/feat/x" ∧ b.isRemote = true) ∧
    runCreate argsRemoteDefault envHidden =
      .error ("Source branch " ++ squote ++ "origin/feat/x" ++ squote ++ " does not exist") := by
  refine ⟨rfl, ⟨remoteFeatBranch, by decide, rfl, rfl⟩, ?_⟩
  exact create_remote_hidden_not_found argsRemoteDefault cfgNoRemote (Except.ok "/repo")
    (fun includeRemote =>
      if includeRemote then [localMainBranch, remoteFeatBranch] else [localMainBranch])
    (fun _ n _ _ _ => "/repo.worktree/" ++ n) (fun _ => "/repo.worktree") (fun _ => Except.ok ())
    "wt" "origin/feat/x" "/repo" rfl (by decide) rfl (by decide) rfl rfl rfl (by decide)
    ⟨remoteFeatBranch, by decide, rfl, rfl⟩

end Branchlet
